import Mathlib

/-!
Verification of the consensus arithmetic and sync-orchestrator policy of the
MimbleCoin node.  The definitions below are shallow embeddings of the Rust
functions in src/core/src/consensus.rs, src/core/src/genesis.rs and
src/servers/src/grin/sync/syncer.rs.  Machine integers (u64, u32) are
modelled as Nat with an explicit `% 2 ^ 64` (resp. `% 2 ^ 32`) wherever the
Rust operation can wrap in release builds; unsigned subtraction that the
source guards (or that the claims condition on) is Nat truncated subtraction.
-/

namespace MimbleNode

/-- Modulus of the u64 machine integers used throughout the consensus code. -/
def U64_MOD : Nat := 2 ^ 64

/-- Modulus of u32, used by the `as u32` narrowing in secondary_pow_scaling. -/
def U32_MOD : Nat := 2 ^ 32

/-- Wrapping u64 subtraction (release-mode Rust semantics); for operands
below `U64_MOD` with `b ≤ a` it agrees with mathematical subtraction. -/
def wrap_sub64 (a b : Nat) : Nat := (a + U64_MOD - b) % U64_MOD

/-- A Mimble is divisible to 10^9 (consensus.rs). -/
def MIMBLE_BASE : Nat := 1000000000

/-- Block interval in seconds (consensus.rs). -/
def BLOCK_TIME_SEC : Nat := 60

/-- Mimble genesis block reward in nanocoins (consensus.rs). -/
def GENESIS_BLOCK_REWARD : Nat := 44100000

/-- An hour of blocks (consensus.rs). -/
def HOUR_HEIGHT : Nat := 3600 / BLOCK_TIME_SEC

/-- A day of blocks (consensus.rs). -/
def DAY_HEIGHT : Nat := 24 * HOUR_HEIGHT

/-- A week of blocks (consensus.rs). -/
def WEEK_HEIGHT : Nat := 7 * DAY_HEIGHT

/-- A year of blocks (consensus.rs). -/
def YEAR_HEIGHT : Nat := 52 * WEEK_HEIGHT

/-- Cuckaroo proof-of-work edge_bits (consensus.rs). -/
def SECOND_POW_EDGE_BITS : Nat := 29

/-- Original reference edge_bits for difficulty factors (consensus.rs). -/
def BASE_EDGE_BITS : Nat := 24

/-- Number of blocks used to calculate difficulty adjustments (consensus.rs). -/
def DIFFICULTY_ADJUST_WINDOW : Nat := HOUR_HEIGHT

/-- Average time span of the difficulty adjustment window (consensus.rs). -/
def BLOCK_TIME_WINDOW : Nat := DIFFICULTY_ADJUST_WINDOW * BLOCK_TIME_SEC

/-- Clamp factor for difficulty adjustment (consensus.rs). -/
def CLAMP_FACTOR : Nat := 2

/-- Dampening factor for difficulty adjustment (consensus.rs). -/
def DIFFICULTY_DAMP_FACTOR : Nat := 3

/-- Dampening factor for AR scale calculation (consensus.rs). -/
def AR_SCALE_DAMP_FACTOR : Nat := 13

/-- Minimum difficulty, enforced in diff retargetting (consensus.rs). -/
def MIN_DIFFICULTY : Nat := DIFFICULTY_DAMP_FACTOR

/-- Minimum scaling factor for AR pow (consensus.rs). -/
def MIN_AR_SCALE : Nat := AR_SCALE_DAMP_FACTOR

/-- Unit difficulty, `(2 << (SECOND_POW_EDGE_BITS - BASE_EDGE_BITS)) *
SECOND_POW_EDGE_BITS` (consensus.rs lines 185-187). -/
def UNIT_DIFFICULTY : Nat :=
  (2 <<< (SECOND_POW_EDGE_BITS - BASE_EDGE_BITS)) * SECOND_POW_EDGE_BITS

/-- The `secondary_scaling` field of the mainnet genesis proof of work
(genesis.rs line 144). -/
def GENESIS_MAIN_SECONDARY_SCALING : Nat := 1856

/-- Modelled from the spec: `global::base_edge_bits` (global.rs is not part of
the provided sources); per the spec the reference edge_bits is
`BASE_EDGE_BITS = 24`. -/
def base_edge_bits : Nat := BASE_EDGE_BITS

/-- Compute weight of a graph (consensus.rs lines 169-175), with release-mode
u64 semantics: the subtraction `edge_bits - base_edge_bits` wraps and the
shift amount of `<<` on u64 is masked to its low 6 bits. -/
def graph_weight (_height : Nat) (edge_bits : Nat) : Nat :=
  if edge_bits ≤ 31 then
    (2 <<< (wrap_sub64 edge_bits base_edge_bits % 64)) % U64_MOD * edge_bits % U64_MOD
  else
    1

/-- The all-zero hash sentinel (hash.rs ZERO_HASH), modelled as 0. -/
def ZERO_HASH : Nat := 0

/-- Minimal header information required for the difficulty calculation
(consensus.rs struct HeaderInfo); `difficulty` is the u64 scalar inside the
`Difficulty` wrapper. -/
structure HeaderInfo where
  block_hash : Nat
  timestamp : Nat
  difficulty : Nat
  secondary_scaling : Nat
  is_secondary : Bool
deriving DecidableEq

instance : Inhabited HeaderInfo := ⟨⟨0, 0, 0, 0, false⟩⟩

/-- Constructor from a difficulty and secondary factor, setting a default
timestamp (consensus.rs HeaderInfo::from_diff_scaling). -/
def HeaderInfo.from_diff_scaling (difficulty secondary_scaling : Nat) : HeaderInfo :=
  ⟨ZERO_HASH, 1, difficulty, secondary_scaling, true⟩

/-- Move value linearly toward a goal (consensus.rs `damp`); the u64 sum in
the numerator wraps. -/
def damp (actual goal damp_factor : Nat) : Nat :=
  (actual + (damp_factor - 1) * goal) % U64_MOD / damp_factor

/-- Limit value to be within some factor from a goal (consensus.rs `clamp`);
the u64 product `goal * clamp_factor` wraps. -/
def clamp (actual goal clamp_factor : Nat) : Nat :=
  max (goal / clamp_factor) (min actual (goal * clamp_factor % U64_MOD))

/-- Ratio the secondary proof of work should take over the primary
(consensus.rs `secondary_pow_ratio`); `saturating_sub` is Nat subtraction. -/
def secondary_pow_ratio (height : Nat) : Nat :=
  90 - height / (2 * YEAR_HEIGHT / 90)

/-- The AR scale damping factor to use (consensus.rs `ar_scale_damp_factor`). -/
def ar_scale_damp_factor (_height : Nat) : Nat := AR_SCALE_DAMP_FACTOR

/-- Count, in units of 1/100, of secondary blocks in the window
(consensus.rs `ar_count`); the u64 product wraps. -/
def ar_count (_height : Nat) (diff_data : List HeaderInfo) : Nat :=
  100 * (diff_data.filter (fun n => n.is_secondary)).length % U64_MOD

/-- The u64 value `max(MIN_AR_SCALE, scale)` computed by
`secondary_pow_scaling` (consensus.rs lines 320-343) just before the final
`as u32` narrowing.  The running u64 sum of the u32 scaling factors wraps. -/
def secondary_pow_scale_raw (height : Nat) (diff_data : List HeaderInfo) : Nat :=
  let scale_sum := diff_data.foldl (fun s dd => (s + dd.secondary_scaling) % U64_MOD) 0
  let target_pct := secondary_pow_ratio height
  let target_count := DIFFICULTY_ADJUST_WINDOW * target_pct
  let adj_count :=
    clamp (damp (ar_count height diff_data) target_count (ar_scale_damp_factor height))
      target_count CLAMP_FACTOR
  let scale := scale_sum * target_pct % U64_MOD / max 1 adj_count
  max MIN_AR_SCALE scale

/-- Factor by which the secondary proof of work difficulty is adjusted
(consensus.rs `secondary_pow_scaling`): the floored scale narrowed to u32. -/
def secondary_pow_scaling (height : Nat) (diff_data : List HeaderInfo) : Nat :=
  secondary_pow_scale_raw height diff_data % U32_MOD

/-- Next-block difficulty computation (consensus.rs lines 278-312), taking
the already-materialized oldest-first window `diff_data`.  Modelled from the
spec: `global::difficulty_data_to_vector` (outside the provided sources)
reorders the newest-first cursor into this oldest-first window of
`DIFFICULTY_ADJUST_WINDOW + 1` records, padding when history is short; the
claims quantify over full windows, for which it is exactly that reordering.
The u64 timestamp subtraction and the u64 difficulty sum and product wrap. -/
def next_difficulty (height : Nat) (diff_data : List HeaderInfo) : HeaderInfo :=
  let sec_pow_scaling := secondary_pow_scaling height (diff_data.drop 1)
  let ts_delta := wrap_sub64 (diff_data.getD DIFFICULTY_ADJUST_WINDOW default).timestamp
    (diff_data.getD 0 default).timestamp
  let diff_sum := (diff_data.drop 1).foldl (fun s dd => (s + dd.difficulty) % U64_MOD) 0
  let adj_ts := clamp (damp ts_delta BLOCK_TIME_WINDOW DIFFICULTY_DAMP_FACTOR)
    BLOCK_TIME_WINDOW CLAMP_FACTOR
  let difficulty := max MIN_DIFFICULTY (diff_sum * BLOCK_TIME_SEC % U64_MOD / adj_ts)
  HeaderInfo.from_diff_scaling difficulty sec_pow_scaling

/-- Mimble size of the block group (consensus.rs). -/
def MIMBLE_BLOCKS_PER_GROUP : Nat := 2100000

/-- Floonet size of the block group (consensus.rs). -/
def MIMBLE_BLOCKS_PER_GROUP_FLOO : Nat := 2880

/-- Mimble block reward for the first group (consensus.rs). -/
def MIMBLE_FIRST_GROUP_REWARD : Nat := 5238095238

/-- Mimble block reward for the second group (consensus.rs). -/
def MIMBLE_SECOND_GROUP_REWARD : Nat := 2380952380

/-- Number of reward groups (consensus.rs). -/
def MIMBLE_GROUPS_NUM : Nat := 32

/-- Epoch length selected by network (`global::is_floonet`, passed here as
the `floonet` flag). -/
def mimble_blocks_per_group (floonet : Bool) : Nat :=
  if floonet then MIMBLE_BLOCKS_PER_GROUP_FLOO else MIMBLE_BLOCKS_PER_GROUP

/-- Mimble block reward per height (consensus.rs `calc_mwc_block_reward`,
lines 364-387).  `1 << group_num` only occurs for `group_num < 32` and never
wraps u64. -/
def calc_mwc_block_reward (floonet : Bool) (height : Nat) : Nat :=
  if height = 0 then
    GENESIS_BLOCK_REWARD
  else
    let group_num := (height - 1) / mimble_blocks_per_group floonet
    if group_num < 1 then
      MIMBLE_FIRST_GROUP_REWARD
    else if MIMBLE_GROUPS_NUM ≤ group_num then
      0
    else
      MIMBLE_SECOND_GROUP_REWARD * 2 / (1 <<< group_num)

/-- The `for _x in 0..MIMBLE_GROUPS_NUM` accumulation loop of
`calc_mwc_block_overage` (consensus.rs lines 404-416): `fuel` counts the
remaining iterations, `x` is the loop index, and the loop breaks as soon as
`block_count < bpg`. -/
def calc_mwc_overage_loop (floonet : Bool) (bpg : Nat) :
    Nat → Nat → Nat → Nat → Nat
  | _x, 0, _block_count, overage => overage
  | x, fuel + 1, block_count, overage =>
    let contrib :=
      if x = 0 then
        min block_count bpg * MIMBLE_FIRST_GROUP_REWARD
      else
        min block_count bpg * calc_mwc_block_reward floonet (x * bpg + 1)
    let overage2 := overage + contrib
    if block_count < bpg then
      overage2
    else
      calc_mwc_overage_loop floonet bpg (x + 1) fuel (block_count - bpg) overage2

/-- Total rewarded coins through `height` inclusive (consensus.rs
`calc_mwc_block_overage`, lines 390-424); the final deduction of the genesis
reward is u64 subtraction, modelled as Nat truncated subtraction. -/
def calc_mwc_block_overage (floonet : Bool) (height : Nat)
    (genesis_had_reward : Bool) : Nat :=
  let bpg := mimble_blocks_per_group floonet
  let overage := calc_mwc_overage_loop floonet bpg 0 MIMBLE_GROUPS_NUM height GENESIS_BLOCK_REWARD
  if genesis_had_reward then overage else overage - GENESIS_BLOCK_REWARD

/-- Peer summary consumed by the orchestrator (spec section 6): exposes
`height` and `total_difficulty`.  Modelled from the spec: the `Difficulty`
wrapper (outside the provided sources) is an unsigned 64-bit scalar, taken
here as Nat. -/
structure PeerInfo where
  height : Nat
  total_difficulty : Nat
deriving DecidableEq

/-- The `needs_syncing` decision (syncer.rs lines 360-418), as a pure
function of the local total difficulty, the current syncing flag, the
most-work peer (none when no peer is available), and the difficulty iterator
contents (newest first).  Returns the `(is_syncing, height, difficulty)`
triple. -/
def needs_syncing (local_diff : Nat) (is_syncing : Bool)
    (peer : Option PeerInfo) (diff_iter : List Nat) : Bool × Nat × Nat :=
  match peer with
  | none => (false, 0, 0)
  | some peer_info =>
    if is_syncing then
      if peer_info.total_difficulty ≤ local_diff then
        (false, peer_info.height, peer_info.total_difficulty)
      else
        (true, peer_info.height, peer_info.total_difficulty)
    else
      let threshold := (diff_iter.take 5).foldl (fun sum val => sum + val) 0
      if local_diff + threshold < peer_info.total_difficulty then
        (true, peer_info.height, peer_info.total_difficulty)
      else
        (false, peer_info.height, peer_info.total_difficulty)

/-- Minimum number of peers awaited at startup (syncer.rs line 88). -/
def MIN_PEERS : Nat := 3

/-- Exit decision of one iteration of `wait_for_min_peers` (syncer.rs lines
89-110): the loop breaks in this iteration (with the stop flag unset) iff
the outer exit condition holds and additionally `wp > 0` or the node is not
in production mode. -/
def wait_for_min_peers_breaks (wp : Nat) (enough_outbound : Bool)
    (head_total_difficulty : Nat) (n : Nat) (wait_secs : Nat)
    (is_production : Bool) : Bool :=
  (decide (MIN_PEERS < wp)
      || (decide (wp = 0) && enough_outbound && decide (0 < head_total_difficulty))
      || decide (wait_secs < n))
    && (decide (0 < wp) || !is_production)

/-- Outcome of the header-head lock acquisition logic of one main-loop
iteration (syncer.rs lines 231-263). -/
inductive HeaderLockAction where
  | retry_after_sleep
  | retry_txhashset
  | restart_with_error
  | proceed
deriving DecidableEq

/-- The header-lock backoff step of the sync loop (syncer.rs lines 237-263):
given the current consecutive-failure counter, whether `try_header_head`
yielded a header head, and whether `SyncStatus` is in a txhashset phase,
returns the action taken and the new counter value. -/
def header_lock_step (header_block_counter : Nat) (got_header_head : Bool)
    (is_txhashset_operation : Bool) : HeaderLockAction × Nat :=
  if header_block_counter < 60 ∧ got_header_head = false then
    (HeaderLockAction.retry_after_sleep, header_block_counter + 1)
  else if is_txhashset_operation = true ∧ got_header_head = false then
    (HeaderLockAction.retry_txhashset, header_block_counter)
  else if got_header_head = false then
    (HeaderLockAction.restart_with_error, header_block_counter)
  else
    (HeaderLockAction.proceed, 0)

/-- A full 61-record oldest-first difficulty window used as a concrete
evaluation point: timestamps one block interval apart, difficulty 1000. -/
def sample_window : List HeaderInfo :=
  (List.range 61).map (fun i => ⟨0, 60 * i, 1000, 1856, false⟩)

/-- A 60-record window whose u32-narrowed secondary scaling wraps: 55 records
with scaling `u32::MAX`, one with 1622543256, four with 0, none secondary.
At height 0 the floored scale is exactly `2 ^ 32`. -/
def narrow_scaling_window : List HeaderInfo :=
  List.replicate 55 ⟨0, 1, 1, 4294967295, false⟩
    ++ [⟨0, 1, 1, 1622543256, false⟩]
    ++ List.replicate 4 ⟨0, 1, 1, 0, false⟩

/-- Helper: the overage accumulation loop is additive in its accumulator. -/
theorem calc_mwc_overage_loop_add (floonet : Bool) (bpg : Nat) :
    ∀ (fuel x block_count overage : Nat),
      calc_mwc_overage_loop floonet bpg x fuel block_count overage
        = overage + calc_mwc_overage_loop floonet bpg x fuel block_count 0 := by
  intro fuel
  induction fuel with
  | zero =>
    intro x bc ov
    simp [calc_mwc_overage_loop]
  | succ n ih =>
    intro x bc ov
    simp only [calc_mwc_overage_loop]
    by_cases hlt : bc < bpg
    · rw [if_pos hlt, if_pos hlt]
      omega
    · rw [if_neg hlt, if_neg hlt]
      rw [ih (x + 1) (bc - bpg), ih (x + 1) (bc - bpg) (0 + _)]
      omega

/-- Claim C1: on the mainnet schedule, the cumulative emission through block
`34 * 2100000` with the genesis reward included is exactly the fixed total
supply of `21000000 * 10 ^ 9` base units. -/
theorem calc_mwc_block_overage_total :
    calc_mwc_block_overage false (34 * 2100000) true = 21000000 * MIMBLE_BASE := by
  decide

/-- Claim C5 counterexample: `UNIT_DIFFICULTY` does not evaluate to
`32 * 29 = 928` as the spec states; `2 << 5` is 64, not 32. -/
theorem UNIT_DIFFICULTY_not_928 : UNIT_DIFFICULTY ≠ 928 := by decide

/-- Claim C5 (amended): `UNIT_DIFFICULTY`, defined as
`(2 << (SECOND_POW_EDGE_BITS - BASE_EDGE_BITS)) * SECOND_POW_EDGE_BITS`,
evaluates to `64 * 29 = 1856`, which also equals the `secondary_scaling`
of the mainnet genesis proof of work. -/
theorem UNIT_DIFFICULTY_value :
    UNIT_DIFFICULTY = (2 <<< (SECOND_POW_EDGE_BITS - BASE_EDGE_BITS)) * SECOND_POW_EDGE_BITS
      ∧ UNIT_DIFFICULTY = 64 * 29
      ∧ UNIT_DIFFICULTY = 1856
      ∧ UNIT_DIFFICULTY = GENESIS_MAIN_SECONDARY_SCALING := by
  refine ⟨rfl, by decide, by decide, by decide⟩

/-- Claim C2: on the mainnet schedule the per-height block subsidy follows
the epoch table exactly: height 0 pays the genesis reward 44100000; every
height in epoch 0 (heights 1 through 2100000) pays 5238095238; every height
inside epoch `k` for `1 ≤ k ≤ 31` (heights `2100000 * k + 1` through
`2100000 * (k + 1)`) pays `2380952380 >> (k - 1)`; every height of epoch
index 32 or later pays 0. -/
theorem calc_mwc_block_reward_schedule :
    calc_mwc_block_reward false 0 = 44100000 ∧
    (∀ h, 1 ≤ h → h ≤ 2100000 → calc_mwc_block_reward false h = 5238095238) ∧
    (∀ k h, 1 ≤ k → k ≤ 31 → 2100000 * k + 1 ≤ h → h ≤ 2100000 * (k + 1) →
      calc_mwc_block_reward false h = 2380952380 >>> (k - 1)) ∧
    (∀ h, 2100000 * 32 + 1 ≤ h → calc_mwc_block_reward false h = 0) := by
  have hE : mimble_blocks_per_group false = 2100000 := rfl
  refine ⟨by decide, ?_, ?_, ?_⟩
  · intro h h1 h2
    have hne : ¬ h = 0 := by omega
    have hdiv : (h - 1) / mimble_blocks_per_group false = 0 := by
      rw [hE]
      exact Nat.div_eq_of_lt (by omega)
    simp only [calc_mwc_block_reward, if_neg hne, hdiv]
    norm_num
    rfl
  · intro k h hk1 hk31 hlo hhi
    have hne : ¬ h = 0 := by omega
    have hdiv : (h - 1) / mimble_blocks_per_group false = k := by
      rw [hE]
      exact Nat.div_eq_of_lt_le (by omega) (by omega)
    have hnlt : ¬ k < 1 := by omega
    have hnge : ¬ MIMBLE_GROUPS_NUM ≤ k := by
      have h32 : MIMBLE_GROUPS_NUM = 32 := rfl
      omega
    simp only [calc_mwc_block_reward, if_neg hne, hdiv, if_neg hnlt, if_neg hnge]
    obtain ⟨k0, rfl⟩ : ∃ k0, k = k0 + 1 := ⟨k - 1, by omega⟩
    rw [Nat.one_shiftLeft, Nat.shiftRight_eq_div_pow]
    show 2380952380 * 2 / 2 ^ (k0 + 1) = 2380952380 / 2 ^ (k0 + 1 - 1)
    rw [pow_succ, Nat.mul_div_mul_right _ _ (by norm_num), Nat.add_sub_cancel]
  · intro h hge
    have hne : ¬ h = 0 := by omega
    have hdiv : 32 ≤ (h - 1) / mimble_blocks_per_group false := by
      rw [hE, Nat.le_div_iff_mul_le (by norm_num)]
      omega
    have hnlt : ¬ (h - 1) / mimble_blocks_per_group false < 1 := by omega
    have hge32 : MIMBLE_GROUPS_NUM ≤ (h - 1) / mimble_blocks_per_group false := by
      have h32 : MIMBLE_GROUPS_NUM = 32 := rfl
      omega
    simp only [calc_mwc_block_reward, if_neg hne, if_neg hnlt, if_pos hge32]

/-- Claim C2 witness: the schedule evaluated at concrete heights of epochs
0, 5 and 33. -/
theorem calc_mwc_block_reward_schedule_witness :
    calc_mwc_block_reward false 0 = 44100000 ∧
    calc_mwc_block_reward false 1 = 5238095238 ∧
    calc_mwc_block_reward false (2100000 * 5 + 200) = 2380952380 >>> 4 ∧
    calc_mwc_block_reward false (2100000 * 33 + 200) = 0 :=
  ⟨calc_mwc_block_reward_schedule.1,
    calc_mwc_block_reward_schedule.2.1 1 (by decide) (by decide),
    calc_mwc_block_reward_schedule.2.2.1 5 (2100000 * 5 + 200)
      (by decide) (by decide) (by decide) (by decide),
    calc_mwc_block_reward_schedule.2.2.2 (2100000 * 33 + 200) (by decide)⟩

/-- Claim C10: for every height on either network, the overage without the
genesis reward is exactly the overage with it minus 44100000, and the final
subtraction never underflows because the accumulator starts at
`GENESIS_BLOCK_REWARD` and only grows. -/
theorem calc_mwc_block_overage_genesis_offset :
    ∀ (floonet : Bool) (height : Nat),
      calc_mwc_block_overage floonet height false + GENESIS_BLOCK_REWARD
          = calc_mwc_block_overage floonet height true ∧
      GENESIS_BLOCK_REWARD ≤ calc_mwc_block_overage floonet height true ∧
      calc_mwc_block_overage floonet height false
          = calc_mwc_block_overage floonet height true - 44100000 := by
  intro fl h
  have key := calc_mwc_overage_loop_add fl (mimble_blocks_per_group fl)
    MIMBLE_GROUPS_NUM 0 h GENESIS_BLOCK_REWARD
  have hG : GENESIS_BLOCK_REWARD = 44100000 := rfl
  simp only [calc_mwc_block_overage, if_true, if_false, Bool.false_eq_true]
  omega

/-- Claim C9 counterexample: for `edge_bits = 23` the code does not return
`(2 << (edge_bits - 24)) * edge_bits` (which reads 46 with truncated
subtraction): the u64 subtraction `23 - 24` wraps, the masked shift amount
becomes 63, and the function returns 0. -/
theorem graph_weight_underflow_cex :
    graph_weight 1 23 ≠ 2 <<< (23 - 24) * 23 ∧ graph_weight 1 23 = 0 := by
  refine ⟨by decide, by decide⟩

/-- Claim C9 (amended): for every height, `graph_weight` returns
`(2 << (edge_bits - 24)) * edge_bits` for `24 ≤ edge_bits ≤ 31` and 1 for
`edge_bits > 31`; for `edge_bits < 24` the u64 subtraction wraps instead. -/
theorem graph_weight_formula :
    ∀ (height edge_bits : Nat),
      (24 ≤ edge_bits → edge_bits ≤ 31 →
        graph_weight height edge_bits = 2 <<< (edge_bits - 24) * edge_bits) ∧
      (31 < edge_bits → graph_weight height edge_bits = 1) := by
  intro height eb
  constructor
  · intro h24 h31
    interval_cases eb <;> rfl
  · intro h31
    have hne : ¬ eb ≤ 31 := by omega
    simp only [graph_weight, if_neg hne]

/-- Claim C9 witness: the formula at the genesis edge_bits 29 and the
demotion at 32. -/
theorem graph_weight_formula_witness :
    graph_weight 1 29 = 2 <<< (29 - 24) * 29 ∧ graph_weight 1 32 = 1 :=
  ⟨(graph_weight_formula 1 29).1 (by decide) (by decide),
    (graph_weight_formula 1 32).2 (by decide)⟩

/-- Claim C4 counterexample: a 60-record window (none secondary, scaling
factors summing to 237845744481) at height 0 makes the floored scale exactly
`2 ^ 32`, so the `as u32` narrowing returns 0, below `MIN_AR_SCALE = 13`. -/
theorem secondary_pow_scaling_narrow_cex :
    secondary_pow_scaling 0 narrow_scaling_window = 0 ∧
    secondary_pow_scaling 0 narrow_scaling_window < MIN_AR_SCALE := by
  refine ⟨by decide, by decide⟩

/-- Claim C4 (amended): whenever the u64 value `max(MIN_AR_SCALE, scale)`
fits in 32 bits, the value returned by `secondary_pow_scaling` is at least
`MIN_AR_SCALE = 13`; otherwise the narrowing to u32 can wrap below it. -/
theorem secondary_pow_scaling_min :
    ∀ (height : Nat) (diff_data : List HeaderInfo),
      secondary_pow_scale_raw height diff_data < U32_MOD →
      MIN_AR_SCALE ≤ secondary_pow_scaling height diff_data := by
  intro height diff_data h
  unfold secondary_pow_scaling
  rw [Nat.mod_eq_of_lt h]
  exact Nat.le_max_left _ _

/-- Claim C4 witness: the empty window at height 0 keeps the raw scale below
`2 ^ 32` and the returned scaling is exactly 13. -/
theorem secondary_pow_scaling_min_witness :
    secondary_pow_scale_raw 0 [] < U32_MOD ∧
    MIN_AR_SCALE ≤ secondary_pow_scaling 0 [] :=
  ⟨by decide, secondary_pow_scaling_min 0 [] (by decide)⟩

/-- Helper: wrapping u64 subtraction agrees with Nat subtraction when the
minuend is a valid u64 at least as large as the subtrahend. -/
theorem wrap_sub64_eq (a b : Nat) (hba : b ≤ a) (ha : a < U64_MOD) :
    wrap_sub64 a b = a - b := by
  unfold wrap_sub64
  have h1 : a + U64_MOD - b = a - b + U64_MOD := by omega
  rw [h1, Nat.add_mod_right]
  exact Nat.mod_eq_of_lt (by omega)

/-- Helper: the wrapping u64 running sum of difficulties agrees with the
mathematical sum while the total stays below the modulus. -/
theorem foldl_mod_difficulty (m : Nat) :
    ∀ (l : List HeaderInfo) (a : Nat),
      a + (l.map (fun x => x.difficulty)).sum < m →
      l.foldl (fun s x => (s + x.difficulty) % m) a
        = a + (l.map (fun x => x.difficulty)).sum := by
  intro l
  induction l with
  | nil =>
    intro a _h
    simp
  | cons hd tl ih =>
    intro a h
    simp only [List.map_cons, List.sum_cons] at h
    rw [List.foldl_cons]
    have h1 : a + hd.difficulty < m := by omega
    rw [Nat.mod_eq_of_lt h1, ih (a + hd.difficulty) (by omega)]
    simp only [List.map_cons, List.sum_cons]
    omega

/-- Claim C3: for every full oldest-first window of 61 records whose bound
timestamps make the subtraction defined (and whose u64 quantities do not
overflow), `next_difficulty` returns
`max(MIN_DIFFICULTY, diff_sum * 60 / clamp(damp(ts_delta, 3600, 3), 3600, 2))`
where `ts_delta` is newest minus oldest timestamp and `diff_sum` sums the
newest 60 difficulties (oldest record skipped); in particular the result is
at least `MIN_DIFFICULTY = 3`. -/
theorem next_difficulty_formula :
    ∀ (height : Nat) (diff_data : List HeaderInfo),
      diff_data.length = DIFFICULTY_ADJUST_WINDOW + 1 →
      (diff_data.getD 0 default).timestamp
          ≤ (diff_data.getD DIFFICULTY_ADJUST_WINDOW default).timestamp →
      (diff_data.getD DIFFICULTY_ADJUST_WINDOW default).timestamp < U64_MOD →
      ((diff_data.drop 1).map (fun x => x.difficulty)).sum * BLOCK_TIME_SEC < U64_MOD →
      (next_difficulty height diff_data).difficulty
          = max MIN_DIFFICULTY
              (((diff_data.drop 1).map (fun x => x.difficulty)).sum * BLOCK_TIME_SEC /
                clamp
                  (damp ((diff_data.getD DIFFICULTY_ADJUST_WINDOW default).timestamp
                      - (diff_data.getD 0 default).timestamp)
                    BLOCK_TIME_WINDOW DIFFICULTY_DAMP_FACTOR)
                  BLOCK_TIME_WINDOW CLAMP_FACTOR) ∧
      MIN_DIFFICULTY ≤ (next_difficulty height diff_data).difficulty := by
  intro height dd _hlen hts htsb hsum
  have hB : BLOCK_TIME_SEC = 60 := rfl
  have hfold : (dd.drop 1).foldl (fun s x => (s + x.difficulty) % U64_MOD) 0
      = ((dd.drop 1).map (fun x => x.difficulty)).sum := by
    have hlt : 0 + ((dd.drop 1).map (fun x => x.difficulty)).sum < U64_MOD := by
      rw [hB] at hsum
      omega
    rw [foldl_mod_difficulty U64_MOD (dd.drop 1) 0 hlt]
    omega
  have hwrap : wrap_sub64 (dd.getD DIFFICULTY_ADJUST_WINDOW default).timestamp
      (dd.getD 0 default).timestamp
      = (dd.getD DIFFICULTY_ADJUST_WINDOW default).timestamp
          - (dd.getD 0 default).timestamp := wrap_sub64_eq _ _ hts htsb
  have hmod : ((dd.drop 1).map (fun x => x.difficulty)).sum * BLOCK_TIME_SEC % U64_MOD
      = ((dd.drop 1).map (fun x => x.difficulty)).sum * BLOCK_TIME_SEC :=
    Nat.mod_eq_of_lt hsum
  have hdiff : (next_difficulty height dd).difficulty
      = max MIN_DIFFICULTY
          ((dd.drop 1).foldl (fun s x => (s + x.difficulty) % U64_MOD) 0
              * BLOCK_TIME_SEC % U64_MOD /
            clamp (damp (wrap_sub64 (dd.getD DIFFICULTY_ADJUST_WINDOW default).timestamp
                (dd.getD 0 default).timestamp) BLOCK_TIME_WINDOW DIFFICULTY_DAMP_FACTOR)
              BLOCK_TIME_WINDOW CLAMP_FACTOR) := rfl
  constructor
  · rw [hdiff, hfold, hwrap, hmod]
  · rw [hdiff]
    exact Nat.le_max_left _ _

/-- Claim C3 witness: a full window of 61 records one block interval apart
with difficulty 1000 everywhere retargets to difficulty 1000. -/
theorem next_difficulty_formula_witness :
    sample_window.length = DIFFICULTY_ADJUST_WINDOW + 1 ∧
    (next_difficulty 100 sample_window).difficulty = 1000 ∧
    MIN_DIFFICULTY ≤ (next_difficulty 100 sample_window).difficulty := by
  have h := next_difficulty_formula 100 sample_window
    (by decide) (by decide) (by decide) (by decide)
  exact ⟨by decide, h.1.trans (by decide), h.2⟩

/-- Helper: folding addition from an accumulator is the accumulator plus
the list sum. -/
theorem foldl_add_sum :
    ∀ (l : List Nat) (a : Nat), l.foldl (fun sum val => sum + val) a = a + l.sum := by
  intro l
  induction l with
  | nil =>
    intro a
    simp
  | cons hd tl ih =>
    intro a
    rw [List.foldl_cons, ih, List.sum_cons]
    omega

/-- Claim C6: the needs_syncing decision has strict-threshold hysteresis:
with no peer it returns `(false, 0, 0)`; when not syncing it reports syncing
exactly when the peer difficulty strictly exceeds local plus the sum of the
last five difficulties (equality stays out of sync, one more enters it);
when already syncing it reports not syncing exactly when the peer difficulty
is at most local. -/
theorem needs_syncing_policy :
    ∀ (local_diff : Nat) (diff_iter : List Nat) (p : PeerInfo) (b : Bool) (ph : Nat),
      needs_syncing local_diff b none diff_iter = (false, 0, 0) ∧
      ((needs_syncing local_diff false (some p) diff_iter).1 = true
          ↔ local_diff + (diff_iter.take 5).sum < p.total_difficulty) ∧
      needs_syncing local_diff false
          (some ⟨ph, local_diff + (diff_iter.take 5).sum⟩) diff_iter
          = (false, ph, local_diff + (diff_iter.take 5).sum) ∧
      (needs_syncing local_diff false
          (some ⟨ph, local_diff + (diff_iter.take 5).sum + 1⟩) diff_iter).1 = true ∧
      ((needs_syncing local_diff true (some p) diff_iter).1 = false
          ↔ p.total_difficulty ≤ local_diff) := by
  intro L diffs p b ph
  have hthr : (diffs.take 5).foldl (fun sum val => sum + val) 0 = (diffs.take 5).sum := by
    rw [foldl_add_sum]
    omega
  have hEq : ∀ q : PeerInfo, needs_syncing L false (some q) diffs
      = if L + (diffs.take 5).foldl (fun sum val => sum + val) 0 < q.total_difficulty
        then (true, q.height, q.total_difficulty)
        else (false, q.height, q.total_difficulty) := fun q => rfl
  have hEq5 : needs_syncing L true (some p) diffs
      = if p.total_difficulty ≤ L
        then (false, p.height, p.total_difficulty)
        else (true, p.height, p.total_difficulty) := rfl
  refine ⟨rfl, ?_, ?_, ?_, ?_⟩
  · rw [hEq p, hthr]
    by_cases hc : L + (diffs.take 5).sum < p.total_difficulty
    · simp [hc]
    · simp [hc]
  · rw [hEq ⟨ph, L + (diffs.take 5).sum⟩, hthr]
    simp
  · rw [hEq ⟨ph, L + (diffs.take 5).sum + 1⟩, hthr]
    simp
  · rw [hEq5]
    by_cases hc : p.total_difficulty ≤ L
    · simp [hc]
    · simp [hc]

/-- Claim C7 counterexample: when the count of more-or-same-work peers is
exactly `MIN_PEERS = 3` (before the timeout, in production mode, positive
local difficulty) the wait loop does not exit: the code requires strictly
more than `MIN_PEERS`. -/
theorem wait_for_min_peers_at_min_cex :
    wait_for_min_peers_breaks MIN_PEERS false 1 0 3 true = false := by decide

/-- Claim C7 (amended): the startup wait-for-peers loop exits, before its
timeout and before a stop request, as soon as the count of connected peers
with total work at least local strictly exceeds `MIN_PEERS = 3`. -/
theorem wait_for_min_peers_exit_above_min :
    ∀ (wp : Nat) (enough_outbound : Bool) (td n ws : Nat) (is_production : Bool),
      MIN_PEERS < wp →
      wait_for_min_peers_breaks wp enough_outbound td n ws is_production = true := by
  intro wp eo td n ws prod h
  have h0 : 0 < wp := by
    have h3 : MIN_PEERS = 3 := rfl
    omega
  simp [wait_for_min_peers_breaks, h, h0]

/-- Claim C7 witness: four qualifying peers break the wait at once. -/
theorem wait_for_min_peers_exit_witness :
    MIN_PEERS < 4 ∧ wait_for_min_peers_breaks 4 false 1 0 3 true = true :=
  ⟨by decide, wait_for_min_peers_exit_above_min 4 false 1 0 3 true (by decide)⟩

/-- Claim C8: header-lock backoff in the main loop: below 60 consecutive
failures a failed acquisition increments the counter and retries; at 60 or
more, a failure during a txhashset phase retries silently with the counter
unchanged (so retries are unbounded: iterating the failing txhashset step
any number of times keeps the counter at 60); at 60 or more outside a
txhashset phase a failure surfaces the diagnostic error and restarts the
loop; a successful acquisition resets the counter to 0. -/
theorem header_lock_backoff :
    (∀ c tx, c < 60 →
        header_lock_step c false tx = (HeaderLockAction.retry_after_sleep, c + 1)) ∧
    (∀ c, 60 ≤ c →
        header_lock_step c false true = (HeaderLockAction.retry_txhashset, c)) ∧
    (∀ k, (fun c => (header_lock_step c false true).2)^[k] 60 = 60) ∧
    (∀ c, 60 ≤ c →
        header_lock_step c false false = (HeaderLockAction.restart_with_error, c)) ∧
    (∀ c tx, header_lock_step c true tx = (HeaderLockAction.proceed, 0)) := by
  have h1 : ∀ c tx, c < 60 →
      header_lock_step c false tx = (HeaderLockAction.retry_after_sleep, c + 1) := by
    intro c tx hc
    unfold header_lock_step
    rw [if_pos ⟨hc, rfl⟩]
  have h2 : ∀ c, 60 ≤ c →
      header_lock_step c false true = (HeaderLockAction.retry_txhashset, c) := by
    intro c hc
    unfold header_lock_step
    rw [if_neg (fun h => absurd h.1 (by omega)), if_pos ⟨rfl, rfl⟩]
  have h3 : ∀ k, (fun c => (header_lock_step c false true).2)^[k] 60 = 60 := by
    intro k
    induction k with
    | zero => rfl
    | succ n ih =>
      rw [Function.iterate_succ_apply]
      have hstep : (header_lock_step 60 false true).2 = 60 := by
        rw [h2 60 (by omega)]
      simpa [hstep] using ih
  have h4 : ∀ c, 60 ≤ c →
      header_lock_step c false false = (HeaderLockAction.restart_with_error, c) := by
    intro c hc
    unfold header_lock_step
    rw [if_neg (fun h => absurd h.1 (by omega)), if_neg (by simp), if_pos rfl]
  have h5 : ∀ c tx, header_lock_step c true tx = (HeaderLockAction.proceed, 0) := by
    intro c tx
    unfold header_lock_step
    rw [if_neg (by simp), if_neg (by simp), if_neg (by simp)]
  exact ⟨h1, h2, h3, h4, h5⟩

/-- Claim C8 witness: the four branches at the boundary counter values. -/
theorem header_lock_backoff_witness :
    header_lock_step 59 false false = (HeaderLockAction.retry_after_sleep, 60) ∧
    header_lock_step 60 false true = (HeaderLockAction.retry_txhashset, 60) ∧
    header_lock_step 60 false false = (HeaderLockAction.restart_with_error, 60) ∧
    header_lock_step 60 true false = (HeaderLockAction.proceed, 0) :=
  ⟨header_lock_backoff.1 59 false (by decide),
    header_lock_backoff.2.1 60 (by decide),
    header_lock_backoff.2.2.2.1 60 (by decide),
    header_lock_backoff.2.2.2.2 60 false⟩

end MimbleNode
